import Mathlib

/-!
Shallow embedding of the insta-gift backend (two Next.js API route handlers:
a gift-recommendation endpoint and an Instagram-scrape endpoint).

JavaScript strings are modelled as Lean `String`; JS numbers as `JsNum`
(NaN, signed infinity, or an exact rational — no arithmetic is performed on
prices/budgets by the code, only parsing and passing through, so rationals
are faithful for the values the handlers manipulate); JS values produced by
JSON parsing as `JsVal`; `undefined` as `Option.none` at property-access
sites; a thrown-and-caught exception as `Except.error ()`.

External effects (the Groq inference API, `sharp` image compression,
`JSON.parse`, the puppeteer-driven DOM) are inputs: abstract result values
or oracle functions.  All code authored by the repository (truthiness
checks, the regex cleanup chain, hashtag/keyword extraction, the interests
set, link construction, fallbacks, response shaping) is embedded concretely.

Character-consuming scanners use a fuel parameter equal to the input length;
every step consumes at least one character, so the fuel never runs out and
the definitions compute by kernel reduction.
-/

set_option linter.unusedVariables false

namespace InstaGift

/-- ASCII apostrophe, written by code point to keep source text plain. -/
def aposChar : Char := Char.ofNat 39

/-- ECMAScript regex `\s` / trim whitespace class (WhiteSpace and LineTerminator). -/
def isJsSpace (c : Char) : Bool :=
  let n := c.toNat
  decide (n = 32 ∨ n = 9 ∨ n = 10 ∨ n = 11 ∨ n = 12 ∨ n = 13 ∨
    n = 0xa0 ∨ n = 0x1680 ∨ (0x2000 ≤ n ∧ n ≤ 0x200a) ∨
    n = 0x2028 ∨ n = 0x2029 ∨ n = 0x202f ∨ n = 0x205f ∨ n = 0x3000 ∨ n = 0xfeff)

/-- ECMAScript regex `\w`: ASCII letters, digits and underscore. -/
def isWordChar (c : Char) : Bool :=
  let n := c.toNat
  decide ((65 ≤ n ∧ n ≤ 90) ∨ (97 ≤ n ∧ n ≤ 122) ∨ (48 ≤ n ∧ n ≤ 57) ∨ n = 95)

/-- JS `String.prototype.trim`. -/
def jsTrim (s : String) : String :=
  (((s.data.dropWhile isJsSpace).reverse.dropWhile isJsSpace).reverse).asString

/-- JS number: NaN, signed infinity, or a finite value (modelled exactly). -/
inductive JsNum where
  | nan : JsNum
  | inf : Bool → JsNum
  | val : Rat → JsNum
deriving DecidableEq

/-- JS truthiness of a number: NaN and 0 are falsy. -/
def jsNumTruthy : JsNum → Bool
  | JsNum.nan => false
  | JsNum.inf _ => true
  | JsNum.val q => decide (q ≠ 0)

/-- Decimal digits of a fraction num/den, up to `fuel` digits (model of
JS float printing for the terminating decimals the handlers produce). -/
def fracDigits : Nat → Nat → Nat → List Char
  | 0, _, _ => []
  | _ + 1, 0, _ => []
  | fuel + 1, num, den =>
    Nat.digitChar (num * 10 / den) :: fracDigits fuel (num * 10 % den) den

/-- Decimal rendering of a rational, JS style (`50` → "50", `1/2` → "0.5"). -/
def qToJsString (q : Rat) : String :=
  let sign := if q < 0 then "-" else ""
  let n := q.num.natAbs
  let d := q.den
  let ip := n / d
  let fr := n % d
  sign ++ Nat.repr ip ++ (if fr = 0 then "" else "." ++ (fracDigits 30 fr d).asString)

/-- JS `String(n)` for a number. -/
def jsNumToString : JsNum → String
  | JsNum.nan => "NaN"
  | JsNum.inf true => "Infinity"
  | JsNum.inf false => "-Infinity"
  | JsNum.val q => qToJsString q

/-- A JavaScript value as produced by `JSON.parse` (plus the number model). -/
inductive JsVal where
  | str : String → JsVal
  | num : JsNum → JsVal
  | bool : Bool → JsVal
  | null : JsVal
  | arr : List JsVal → JsVal
  | obj : List (String × JsVal) → JsVal

/-- JS truthiness of a value. -/
def jsTruthy : JsVal → Bool
  | JsVal.str s => decide (s ≠ "")
  | JsVal.num n => jsNumTruthy n
  | JsVal.bool b => b
  | JsVal.null => false
  | JsVal.arr _ => true
  | JsVal.obj _ => true

/-- JS truthiness where `none` stands for `undefined`. -/
def jsTruthyOpt : Option JsVal → Bool
  | none => false
  | some v => jsTruthy v

/-- JS `a || b` where `a` may be `undefined`. -/
def jsOrOpt (o : Option JsVal) (d : JsVal) : JsVal :=
  match o with
  | some v => if jsTruthy v then v else d
  | none => d

/-- JS property access `v[k]`: throws (TypeError) on `null`, yields the field
on objects, `undefined` (`none`) on other values.  Object fields are an
association list with unique keys. -/
def getProp : JsVal → String → Except Unit (Option JsVal)
  | JsVal.null, _ => Except.error ()
  | JsVal.obj fields, k => Except.ok (List.lookup k fields)
  | _, _ => Except.ok none

mutual

/-- JS `String(v)` / array `toString` (recursive worker; inside an array join
`null` prints as the empty string). -/
def jsToStringRec : JsVal → String
  | JsVal.str s => s
  | JsVal.num n => jsNumToString n
  | JsVal.bool b => cond b "true" "false"
  | JsVal.null => "null"
  | JsVal.obj _ => "[object Object]"
  | JsVal.arr xs => String.intercalate "," (jsArrStrs xs)

/-- Stringification of array elements for a JS array join. -/
def jsArrStrs : List JsVal → List String
  | [] => []
  | JsVal.null :: vs => "" :: jsArrStrs vs
  | v :: vs => jsToStringRec v :: jsArrStrs vs

end

/-- JS `String(v)`. -/
def jsToString (v : JsVal) : String :=
  match v with
  | JsVal.str s => s
  | JsVal.num n => jsNumToString n
  | JsVal.bool b => cond b "true" "false"
  | JsVal.null => "null"
  | JsVal.obj _ => "[object Object]"
  | JsVal.arr xs => String.intercalate "," (jsArrStrs xs)

/-- Numeric value of a list of decimal digit characters. -/
def digitsVal (l : List Char) : Nat :=
  l.foldl (fun a c => a * 10 + (c.toNat - 48)) 0

/-- The rational value of an unsigned decimal literal with integer digits
`ip`, fraction digits `fp` and a signed decimal exponent, built with `mkRat`
so that it computes by kernel reduction. -/
def decLitVal (ip fp : List Char) (eneg : Bool) (e : Nat) : Rat :=
  let nNum := digitsVal ip * 10 ^ fp.length + digitsVal fp
  let nDen := 10 ^ fp.length
  if eneg then mkRat nNum (nDen * 10 ^ e) else mkRat (nNum * 10 ^ e) nDen

/-- Longest-prefix unsigned decimal literal (digits, optional fraction,
optional exponent), as consumed by JS `parseFloat`; `none` when no digits. -/
def parseFloatCore (l : List Char) : Option Rat :=
  let ip := l.takeWhile Char.isDigit
  let r1 := l.drop ip.length
  let fp := match r1 with
    | c :: t => if c = '.' then t.takeWhile Char.isDigit else []
    | [] => []
  let r2 := match r1 with
    | c :: t => if c = '.' then t.drop fp.length else r1
    | [] => r1
  if ip.isEmpty && fp.isEmpty then none
  else
    some (match r2 with
      | c :: t =>
        if c = 'e' ∨ c = 'E' then
          let en : Bool := match t with
            | u :: _ => u == '-'
            | [] => false
          let t2 := match t with
            | u :: rest => if u = '-' ∨ u = '+' then rest else t
            | [] => t
          let ed := t2.takeWhile Char.isDigit
          if ed.isEmpty then decLitVal ip fp false 0
          else decLitVal ip fp en (digitsVal ed)
        else decLitVal ip fp false 0
      | [] => decLitVal ip fp false 0)

/-- JS `parseFloat`, after the sign has been consumed. -/
def parseFloatSigned (neg : Bool) (l : List Char) : JsNum :=
  if l.take 8 = "Infinity".data then JsNum.inf (!neg)
  else
    match parseFloatCore l with
    | none => JsNum.nan
    | some q => JsNum.val (if neg then -q else q)

/-- JS `parseFloat`: skip leading whitespace, optional sign, longest valid
numeric prefix; NaN when nothing numeric is found. -/
def parseFloatModel (s : String) : JsNum :=
  match s.data.dropWhile isJsSpace with
  | c :: t =>
    if c = '-' then parseFloatSigned true t
    else if c = '+' then parseFloatSigned false t
    else parseFloatSigned false (c :: t)
  | [] => JsNum.nan

/-- Hex digit test (both cases). -/
def isHexDigitChar (c : Char) : Bool :=
  let n := c.toNat
  decide ((48 ≤ n ∧ n ≤ 57) ∨ (65 ≤ n ∧ n ≤ 70) ∨ (97 ≤ n ∧ n ≤ 102))

/-- Value of a hex digit character. -/
def hexDigitVal (c : Char) : Nat :=
  let n := c.toNat
  if n ≤ 57 then n - 48 else if n ≤ 70 then n - 55 else n - 87

/-- Value of a list of hex digit characters. -/
def hexVal (l : List Char) : Nat :=
  l.foldl (fun a c => a * 16 + hexDigitVal c) 0

/-- Full-string unsigned decimal literal for JS `Number`; must consume all. -/
def numberCore (l : List Char) : Option Rat :=
  let ip := l.takeWhile Char.isDigit
  let r1 := l.drop ip.length
  let fp := match r1 with
    | c :: t => if c = '.' then t.takeWhile Char.isDigit else []
    | [] => []
  let r2 := match r1 with
    | c :: t => if c = '.' then t.drop fp.length else r1
    | [] => r1
  if ip.isEmpty && fp.isEmpty then none
  else
    match r2 with
    | [] => some (decLitVal ip fp false 0)
    | c :: t =>
      if c = 'e' ∨ c = 'E' then
        let en : Bool := match t with
          | u :: _ => u == '-'
          | [] => false
        let t2 := match t with
          | u :: rest => if u = '-' ∨ u = '+' then rest else t
          | [] => t
        let ed := t2.takeWhile Char.isDigit
        if ed.isEmpty ∨ ¬ (t2.drop ed.length).isEmpty then none
        else some (decLitVal ip fp en (digitsVal ed))
      else none

/-- JS `Number(s)` after trimming, on a nonempty string with a sign allowed. -/
def numberSigned (neg : Bool) (l : List Char) : JsNum :=
  if l = "Infinity".data then JsNum.inf (!neg)
  else
    match numberCore l with
    | none => JsNum.nan
    | some q => JsNum.val (if neg then -q else q)

/-- JS `Number(s)` for a string: trim; empty means 0; hex/octal/binary
prefixes (unsigned); otherwise a signed full-string decimal literal. -/
def jsNumberOfString (s : String) : JsNum :=
  let l := (((s.data.dropWhile isJsSpace).reverse.dropWhile isJsSpace).reverse)
  match l with
  | [] => JsNum.val 0
  | '0' :: x :: t =>
    if x = 'x' ∨ x = 'X' then
      if ¬ t.isEmpty ∧ t.all isHexDigitChar then JsNum.val (mkRat (hexVal t) 1) else JsNum.nan
    else if x = 'o' ∨ x = 'O' then
      if ¬ t.isEmpty ∧ t.all (fun c => decide (48 ≤ c.toNat ∧ c.toNat ≤ 55)) then
        JsNum.val (mkRat (t.foldl (fun a c => a * 8 + (c.toNat - 48)) (0 : Nat)) 1)
      else JsNum.nan
    else if x = 'b' ∨ x = 'B' then
      if ¬ t.isEmpty ∧ t.all (fun c => c == '0' || c == '1') then
        JsNum.val (mkRat (t.foldl (fun a c => a * 2 + (c.toNat - 48)) (0 : Nat)) 1)
      else JsNum.nan
    else numberSigned false l
  | '-' :: t => numberSigned true t
  | '+' :: t => numberSigned false t
  | _ => numberSigned false l

/-- JS `parseInt(s)` (radix 10, or 16 on a 0x prefix): skip whitespace,
optional sign, longest digit prefix; NaN when no digits. -/
def parseIntModel (s : String) : JsNum :=
  let l := s.data.dropWhile isJsSpace
  let neg : Bool := match l with
    | c :: _ => c == '-'
    | [] => false
  let l1 := match l with
    | c :: t => if c = '-' ∨ c = '+' then t else l
    | [] => l
  let hex : Bool := match l1 with
    | '0' :: x :: _ => x == 'x' || x == 'X'
    | _ => false
  let ds := if hex then (l1.drop 2).takeWhile isHexDigitChar else l1.takeWhile Char.isDigit
  if ds.isEmpty then JsNum.nan
  else
    let v : Nat := if hex then hexVal ds else digitsVal ds
    JsNum.val (if neg then mkRat (-(v : Int)) 1 else mkRat v 1)

/-- Global regex replace driver: at each position try the matcher; on a match
`(rep, extra)` emit `rep` and consume `1 + extra` characters, otherwise copy
one character.  Fuel is the input length (each step consumes ≥ 1 char). -/
def replaceScanF (m : List Char → Option (List Char × Nat)) : Nat → List Char → List Char
  | 0, l => l
  | _, [] => []
  | fuel + 1, c :: cs =>
    match m (c :: cs) with
    | some (rep, extra) => rep ++ replaceScanF m fuel (cs.drop extra)
    | none => c :: replaceScanF m fuel cs

/-- Global regex replace over a character list. -/
def replaceScan (m : List Char → Option (List Char × Nat)) (l : List Char) : List Char :=
  replaceScanF m l.length l

/-- Matcher for `/,\s*}/` → "}". -/
def mTrailingComma : List Char → Option (List Char × Nat)
  | ',' :: cs =>
    let ws := cs.takeWhile isJsSpace
    match cs.drop ws.length with
    | '}' :: _ => some (['}'], ws.length + 1)
    | _ => none
  | _ => none

/-- Matcher for `/\s+/` → " ". -/
def mWsRun : List Char → Option (List Char × Nat)
  | c :: cs => if isJsSpace c then some ([' '], (cs.takeWhile isJsSpace).length) else none
  | [] => none

/-- Matcher for `/\s*:\s*/` → ":". -/
def mColonWs (l : List Char) : Option (List Char × Nat) :=
  let ws1 := l.takeWhile isJsSpace
  match l.drop ws1.length with
  | ':' :: rest => some ([':'], ws1.length + (rest.takeWhile isJsSpace).length)
  | _ => none

/-- Matcher for `/\s*,\s*/` → ",". -/
def mCommaWs (l : List Char) : Option (List Char × Nat) :=
  let ws1 := l.takeWhile isJsSpace
  match l.drop ws1.length with
  | ',' :: rest => some ([','], ws1.length + (rest.takeWhile isJsSpace).length)
  | _ => none

/-- Matcher for the case-insensitive contraction fixup on "it" + apostrophe
+ "s" → "it is" (the character class in the source holds the ASCII
apostrophe). -/
def mItS : List Char → Option (List Char × Nat)
  | a :: b :: c :: d :: _ =>
    if (a == 'i' || a == 'I') && (b == 't' || b == 'T') && c == aposChar
        && (d == 's' || d == 'S') then
      some ("it is".data, 3)
    else none
  | _ => none

/-- Matcher for apostrophe + "s" + whitespace → "s ". -/
def mAposS : List Char → Option (List Char × Nat)
  | a :: b :: c :: _ =>
    if a == aposChar && b == 's' && isJsSpace c then some ("s ".data, 2) else none
  | _ => none

/-- Matcher for apostrophe + "re" + whitespace → " are ". -/
def mAposRe : List Char → Option (List Char × Nat)
  | a :: b :: c :: d :: _ =>
    if a == aposChar && b == 'r' && c == 'e' && isJsSpace d then
      some (" are ".data, 3)
    else none
  | _ => none

/-- Matcher for apostrophe + "t" + whitespace → "t ". -/
def mAposT : List Char → Option (List Char × Nat)
  | a :: b :: c :: _ =>
    if a == aposChar && b == 't' && isJsSpace c then some ("t ".data, 2) else none
  | _ => none

/-- The JSON cleanup chain applied to the reply text before `JSON.parse`
(smart-quote unification, an identity apostrophe replace kept from the
source, newline and whitespace collapse, separator tightening, contraction
fixups), in source order. -/
def cleanupJson (s : String) : String :=
  let l0 := s.data.map (fun c =>
    if c == Char.ofNat 0x201c || c == Char.ofNat 0x201d then '"' else c)
  let l1 := l0.map (fun c =>
    if c == Char.ofNat 0x2018 || c == Char.ofNat 0x2019 then aposChar else c)
  let l2 := l1.map (fun c => if c == aposChar then aposChar else c)
  let l3 := l2.map (fun c => if c == '\n' then ' ' else c)
  let l4 := replaceScan mTrailingComma l3
  let l5 := replaceScan mWsRun l4
  let l6 := replaceScan mColonWs l5
  let l7 := replaceScan mCommaWs l6
  let l8 := replaceScan mItS l7
  let l9 := replaceScan mAposS l8
  let l10 := replaceScan mAposRe l9
  let l11 := replaceScan mAposT l10
  l11.asString

/-- `text.match(/\[[\s\S]*\]/)`: the leftmost-greedy bracketed slice (first
opening bracket that has a closing bracket after it, out to the last closing
bracket); the original string when there is no match. -/
def extractJsonArray (s : String) : String :=
  let l := s.data
  match l.reverse.findIdx? (fun c => c == ']') with
  | none => s
  | some rj =>
    let j := l.length - 1 - rj
    match (l.take j).findIdx? (fun c => c == '[') with
    | none => s
    | some i => ((l.drop i).take (j - i + 1)).asString

/-- The reply text handed to `JSON.parse`: null content defaults to "[]",
trimmed, empty-after-trim defaults to "[]", bracket slice extracted, then
the cleanup chain. -/
def pipelineText (content : Option String) : String :=
  let t := match content with
    | none => "[]"
    | some s => let t0 := jsTrim s; if t0 = "" then "[]" else t0
  cleanupJson (extractJsonArray t)

/-- Characters `encodeURIComponent` leaves unescaped: alphanumerics and
`- _ . ! ~ * ' ( )`. -/
def isUriUnreserved (c : Char) : Bool :=
  let n := c.toNat
  decide ((65 ≤ n ∧ n ≤ 90) ∨ (97 ≤ n ∧ n ≤ 122) ∨ (48 ≤ n ∧ n ≤ 57)) ||
    c == '-' || c == '_' || c == '.' || c == '!' || c == '~' || c == '*' ||
    c == aposChar || c == '(' || c == ')'

/-- UTF-8 bytes of a code point. -/
def utf8Bytes (n : Nat) : List Nat :=
  if n < 0x80 then [n]
  else if n < 0x800 then [0xc0 + n / 64, 0x80 + n % 64]
  else if n < 0x10000 then [0xe0 + n / 4096, 0x80 + n / 64 % 64, 0x80 + n % 64]
  else [0xf0 + n / 262144, 0x80 + n / 4096 % 64, 0x80 + n / 64 % 64, 0x80 + n % 64]

/-- Uppercase hex digit character for a value < 16. -/
def hexDigitUpper (n : Nat) : Char :=
  if n < 10 then Char.ofNat (48 + n) else Char.ofNat (55 + n)

/-- Percent-escape of one byte. -/
def pctByte (b : Nat) : List Char := ['%', hexDigitUpper (b / 16), hexDigitUpper (b % 16)]

/-- Percent-escape of one character (all its UTF-8 bytes). -/
def pctEncodeChar (c : Char) : List Char := ((utf8Bytes c.toNat).map pctByte).flatten

/-- `encodeURIComponent`, character by character. -/
def encodeURIChars : List Char → List Char
  | [] => []
  | c :: cs => (if isUriUnreserved c then [c] else pctEncodeChar c) ++ encodeURIChars cs

/-- JS `encodeURIComponent`. -/
def encodeURIComponent (s : String) : String := (encodeURIChars s.data).asString

/-- A produced gift recommendation (`price` is the JS number stored in the
`price` field; links are fully built strings). -/
structure GiftRecommendation where
  name : JsVal
  description : JsVal
  price : JsNum
  match_reason : JsVal
  amazon_link : String
  etsy_link : String

/-- `String(rec.price || budget).replace(/[$,]/g, "")`: currency stripping. -/
def stripCurrency (s : String) : String :=
  (s.data.filter (fun c => !(c == '$' || c == ','))).asString

/-- The mapper applied to each parsed element (`recommendations.map`
callback): property accesses (throwing on a null element), falsy defaults,
currency-stripped price parse, and the two marketplace search links. -/
def mapRec (budget : JsNum) (rec : JsVal) : Except Unit GiftRecommendation :=
  match getProp rec "name", getProp rec "description",
      getProp rec "price", getProp rec "match_reason" with
  | Except.ok nameV, Except.ok descV, Except.ok priceV, Except.ok reasonV =>
    Except.ok
      { name := jsOrOpt nameV (JsVal.str "Gift suggestion")
        description := jsOrOpt descV (JsVal.str "")
        price := parseFloatModel (stripCurrency (jsToString (jsOrOpt priceV (JsVal.num budget))))
        match_reason := jsOrOpt reasonV (JsVal.str "")
        amazon_link :=
          "https://www.amazon.com/s?k=" ++ encodeURIComponent (jsToString (jsOrOpt nameV (JsVal.str "")))
        etsy_link :=
          "https://www.etsy.com/search?q=" ++ encodeURIComponent (jsToString (jsOrOpt nameV (JsVal.str ""))) }
  | _, _, _, _ => Except.error ()

/-- `recommendations.map(...)` over the elements of a parsed array, in
order; the first element whose mapping throws aborts the map. -/
def mapRecsList (budget : JsNum) : List JsVal → Except Unit (List GiftRecommendation)
  | [] => Except.ok []
  | e :: es =>
    match mapRec budget e with
    | Except.error u => Except.error u
    | Except.ok r =>
      match mapRecsList budget es with
      | Except.error u => Except.error u
      | Except.ok rs => Except.ok (r :: rs)

/-- `.map` on the parsed JSON value: a TypeError (caught by the handler)
unless the value is an array. -/
def mapRecs (budget : JsNum) : JsVal → Except Unit (List GiftRecommendation)
  | JsVal.arr els => mapRecsList budget els
  | _ => Except.error ()

/-- The hardcoded fallback recommendation, priced at the requested budget. -/
def fallbackRec (budget : JsNum) : GiftRecommendation :=
  { name := JsVal.str "No recommendations available"
    description := JsVal.str "No personalized gift recommendations available."
    price := budget
    match_reason := JsVal.str "No profile analysis available."
    amazon_link := "https://www.amazon.com/s?k=" ++ encodeURIComponent "gift"
    etsy_link := "https://www.etsy.com/search?q=" ++ encodeURIComponent "gift" }

/-- `generateGiftRecommendations(age, budget, profileAnalysis)`.  The
inference call is the input `apiResult` (`error` = the call threw, `ok
content` = the reply's message content, possibly null); `jsonParse` is the
JS `JSON.parse` builtin.  Any caught failure (API call, parse, mapping)
yields the single fallback recommendation; `age` and `profileAnalysis` only
feed the prompt sent to the external API. -/
def generateGiftRecommendations (jsonParse : String → Except Unit JsVal)
    (apiResult : Except Unit (Option String)) (age budget : JsNum)
    (profileAnalysis : String) : List GiftRecommendation :=
  match apiResult with
  | Except.error _ => [fallbackRec budget]
  | Except.ok content =>
    match jsonParse (pipelineText content) with
    | Except.error _ => [fallbackRec budget]
    | Except.ok v =>
      match mapRecs budget v with
      | Except.error _ => [fallbackRec budget]
      | Except.ok recs => recs

/-- Base64 alphabet. -/
def base64Table : List Char :=
  "ABCDEFGHIJKLMNOPQRSTUVWXYZabcdefghijklmnopqrstuvwxyz0123456789+/".data

/-- Base64 digit for a value < 64. -/
def b64Char (n : Nat) : Char := base64Table.getD n 'A'

/-- Standard base64 encoding of a byte list (with padding). -/
def base64Encode : List Nat → List Char
  | [] => []
  | [b1] => [b64Char (b1 / 4), b64Char (b1 % 4 * 16), '=', '=']
  | [b1, b2] => [b64Char (b1 / 4), b64Char (b1 % 4 * 16 + b2 / 16), b64Char (b2 % 16 * 4), '=']
  | b1 :: b2 :: b3 :: rest =>
    b64Char (b1 / 4) :: b64Char (b1 % 4 * 16 + b2 / 16) ::
      b64Char (b2 % 16 * 4 + b3 / 64) :: b64Char (b3 % 64) :: base64Encode rest

/-- `compressImage(buffer)`: empty buffer yields ""; the `sharp` resize and
JPEG re-encode is the external input `sharpResult` (`error` = it threw, and
the catch swallows the failure as ""); otherwise the compressed bytes are
base64-encoded and sliced to the first 50000 characters. -/
def compressImage (buffer : List Nat) (sharpResult : Except Unit (List Nat)) : String :=
  if buffer.length = 0 then ""
  else
    match sharpResult with
    | Except.error _ => ""
    | Except.ok compressed => ((base64Encode compressed).take 50000).asString

/-- `analyzeImage(base64Image)`: the inference call is the input; a thrown
call or null content degrades to "". -/
def analyzeImage (base64Image : String) (apiResult : Except Unit (Option String)) : String :=
  match apiResult with
  | Except.error _ => ""
  | Except.ok c =>
    match c with
    | some s => s
    | none => ""

/-- A multipart form field: absent (`get` returns null), a string field, or
an uploaded file with its bytes. -/
inductive FormValue where
  | missing : FormValue
  | str : String → FormValue
  | file : List Nat → FormValue

/-- `Number(formData.get(k))`: null converts to 0, a string via the string
conversion, a File (via its object stringification) to NaN. -/
def jsNumberOfForm : FormValue → JsNum
  | FormValue.missing => JsNum.val 0
  | FormValue.str s => jsNumberOfString s
  | FormValue.file _ => JsNum.nan

/-- Body of a recommendation-endpoint response. -/
inductive RecoBody where
  | error : String → RecoBody
  | recommendations : List GiftRecommendation → RecoBody

/-- An HTTP JSON response of the recommendation endpoint. -/
structure RecoResponse where
  status : Nat
  body : RecoBody

/-- External effects of the recommendation endpoint: the `sharp` compression
result, the two inference calls, and the `JSON.parse` builtin. -/
structure RecoOracles where
  sharpResult : Except Unit (List Nat)
  analyzeApi : Except Unit (Option String)
  recoApi : Except Unit (Option String)
  jsonParse : String → Except Unit JsVal

/-- The recommendation endpoint `POST` handler.  `formDataResult` is
`request.formData()` (`error` = it threw, caught as a 500).  Missing or
falsy-converting age/budget yield a 400 before any pipeline step; a present
image file runs compress → analyze; a truthy non-file value in the image
field makes `imageFile.arrayBuffer()` throw (caught as a 500); the analysis
text falls back to a placeholder when empty. -/
def POSTrecommendations (formDataResult : Except Unit (String → FormValue))
    (o : RecoOracles) : RecoResponse :=
  match formDataResult with
  | Except.error _ => ⟨500, RecoBody.error "Failed to get gift recommendations"⟩
  | Except.ok fd =>
    let age := jsNumberOfForm (fd "age")
    let budget := jsNumberOfForm (fd "budget")
    if !jsNumTruthy age || !jsNumTruthy budget then
      ⟨400, RecoBody.error "Missing required fields"⟩
    else
      match fd "instagram-grid" with
      | FormValue.file bytes =>
        let base64Image := compressImage bytes o.sharpResult
        let profileAnalysis := analyzeImage base64Image o.analyzeApi
        ⟨200, RecoBody.recommendations (generateGiftRecommendations o.jsonParse o.recoApi
          age budget
          (if profileAnalysis = "" then "No profile analysis available." else profileAnalysis))⟩
      | FormValue.str s =>
        if s = "" then
          ⟨200, RecoBody.recommendations (generateGiftRecommendations o.jsonParse o.recoApi
            age budget "No profile analysis available.")⟩
        else ⟨500, RecoBody.error "Failed to get gift recommendations"⟩
      | FormValue.missing =>
        ⟨200, RecoBody.recommendations (generateGiftRecommendations o.jsonParse o.recoApi
          age budget "No profile analysis available.")⟩

/-- Global match of `/X[\w]+/g` for a marker character `X` (used with `#`
for hashtags and `@` for mentions): greedy word-character runs after the
marker; fuel is the input length. -/
def tagScanF (mark : Char) : Nat → List Char → List (List Char)
  | 0, _ => []
  | _, [] => []
  | fuel + 1, c :: cs =>
    if c = mark then
      let w := cs.takeWhile isWordChar
      if w.isEmpty then tagScanF mark fuel cs
      else (mark :: w) :: tagScanF mark fuel (cs.drop w.length)
    else tagScanF mark fuel cs

/-- `caption.match(/#[\w]+/g) || []`. -/
def hashtagMatch (caption : String) : List String :=
  (tagScanF '#' caption.data.length caption.data).map List.asString

/-- `caption.match(/@[\w]+/g) || []`. -/
def mentionMatch (caption : String) : List String :=
  (tagScanF '@' caption.data.length caption.data).map List.asString

/-- JS `split(/\W+/)` worker: cut at maximal non-word-character runs,
keeping empty pieces at the ends; fuel is the input length. -/
def splitNonWordF : Nat → List Char → List Char → List (List Char)
  | _, [], acc => [acc.reverse]
  | 0, l, acc => [acc.reverse ++ l]
  | fuel + 1, c :: cs, acc =>
    if isWordChar c then splitNonWordF fuel cs (c :: acc)
    else acc.reverse :: splitNonWordF fuel (cs.dropWhile (fun x => !isWordChar x)) []

/-- JS `s.split(/\W+/)`. -/
def splitNonWord (s : String) : List String :=
  (splitNonWordF s.data.length s.data []).map List.asString

/-- JS `toLowerCase` (ASCII model; the length-based claims are unaffected by
locale case mapping). -/
def jsToLower (s : String) : String := (s.data.map Char.toLower).asString

/-- JS `s.slice(1)` (every character the handlers slice is one UTF-16 unit). -/
def jsSlice1 (s : String) : String := (s.data.drop 1).asString

/-- `s.toLowerCase().split(/\W+/).filter((word) => word.length > 3)`: the
keyword extraction applied to captions and to the bio. -/
def keywordsOfString (s : String) : List String :=
  (splitNonWord (jsToLower s)).filter (fun w => decide (3 < w.length))

/-- Keyword extraction through the optional-chaining call (`?.`): an absent
string contributes nothing. -/
def optKeywords : Option String → List String
  | none => []
  | some s => keywordsOfString s

/-- A scraped post (the `InstagramProfile` interface's post shape). -/
structure Post where
  imageUrl : Option String
  caption : Option String
  likes : Option JsNum
  hashtags : Option (List String)
  mentions : Option (List String)

/-- A scraped profile. -/
structure InstagramProfile where
  username : JsVal
  bio : Option String
  posts : List Post

/-- DOM data read from one post page: the `h1` caption text, the article
image `src`, and the like-count span text (each possibly absent). -/
structure PostDom where
  captionText : Option String
  imageSrc : Option String
  likesText : Option String

/-- The per-post `page.evaluate` body: caption defaults to "", likes via
`parseInt(likes || "0")`, hashtags and mentions matched from the caption. -/
def mkPostData (d : PostDom) : Post :=
  let caption := d.captionText.getD ""
  let likesTxt := d.likesText.getD ""
  { imageUrl := d.imageSrc
    caption := some caption
    likes := some (parseIntModel (if likesTxt = "" then "0" else likesTxt))
    hashtags := some (hashtagMatch caption)
    mentions := some (mentionMatch caption) }

/-- The external page state driving one scrape: whether any browser step
threw (navigation, selector wait, ...), the post pages visited (the handler
takes the first 10 links), and the bio span text. -/
structure ScrapeDom where
  fail : Bool
  postPages : List PostDom
  bioText : Option String

/-- `scrapeInstagramProfile(username)`: null on any failure; otherwise the
profile with bio defaulted to "" and the first 10 posts' extracted data. -/
def scrapeInstagramProfile (username : JsVal) (dom : ScrapeDom) : Option InstagramProfile :=
  if dom.fail then none
  else
    some { username := username
           bio := some (dom.bioText.getD "")
           posts := (dom.postPages.take 10).map mkPostData }

/-- `analyzeProfile(profileData)`: the inference call is the input; a
thrown call or null content degrades to "" (the profile only feeds the
prompt). -/
def analyzeProfile (profileData : InstagramProfile)
    (apiResult : Except Unit (Option String)) : String :=
  match apiResult with
  | Except.error _ => ""
  | Except.ok c =>
    match c with
    | some s => s
    | none => ""

/-- `Set.add` on the insertion-ordered string set (`Array.from(new Set)`
order). -/
def setAdd (l : List String) (s : String) : List String :=
  if s ∈ l then l else l ++ [s]

/-- The first interests pass: every hashtag of a post, `#` sliced off and
lowercased. -/
def addHashtagInterests (acc : List String) (p : Post) : List String :=
  (p.hashtags.getD []).foldl (fun a t => setAdd a (jsToLower (jsSlice1 t))) acc

/-- The second interests pass: caption keywords. -/
def addCaptionKeywords (acc : List String) (p : Post) : List String :=
  (optKeywords p.caption).foldl setAdd acc

/-- The interests set built by the scrape endpoint: post hashtags, then
caption keywords, then bio keywords, deduplicated in insertion order. -/
def extractInterests (p : InstagramProfile) : List String :=
  let s1 := p.posts.foldl addHashtagInterests []
  let s2 := p.posts.foldl addCaptionKeywords s1
  (optKeywords p.bio).foldl setAdd s2

/-- Body of a scrape-endpoint response. -/
inductive ScrapeBody where
  | error : String → ScrapeBody
  | success : InstagramProfile → List String → String → ScrapeBody

/-- An HTTP JSON response of the scrape endpoint. -/
structure ScrapeResponse where
  status : Nat
  body : ScrapeBody

/-- The scrape endpoint `POST` handler.  `bodyResult` is `request.json()`
(`error` = it threw; destructuring a null body also throws — both caught as
a 500).  A falsy username yields a 400 before the scraper is launched; a
null scrape result yields a 404; otherwise the response carries the
profile, the interests set and the analysis text. -/
def POSTscrape (bodyResult : Except Unit JsVal) (dom : ScrapeDom)
    (apiResult : Except Unit (Option String)) : ScrapeResponse :=
  match bodyResult with
  | Except.error _ => ⟨500, ScrapeBody.error "Failed to fetch Instagram data"⟩
  | Except.ok b =>
    match getProp b "username" with
    | Except.error _ => ⟨500, ScrapeBody.error "Failed to fetch Instagram data"⟩
    | Except.ok usernameV =>
      if !jsTruthyOpt usernameV then ⟨400, ScrapeBody.error "Username is required"⟩
      else
        match scrapeInstagramProfile (usernameV.getD JsVal.null) dom with
        | none => ⟨404, ScrapeBody.error "Failed to fetch Instagram data"⟩
        | some profileData =>
          ⟨200, ScrapeBody.success profileData (extractInterests profileData)
            (analyzeProfile profileData apiResult)⟩

/-- The price formula exactly as the specification words it: the model's
price value, stringified, with the currency symbols stripped, then parsed
as a number (for comparison against what the code computes). -/
def claimedPrice (modelPrice : JsVal) : JsNum :=
  parseFloatModel (stripCurrency (jsToString modelPrice))

/-- Concrete oracle bundle used by closed witnesses. -/
def oraclesEx : RecoOracles :=
  { sharpResult := Except.ok []
    analyzeApi := Except.ok none
    recoApi := Except.ok none
    jsonParse := fun _ => Except.ok JsVal.null }

/-- Concrete parsed-array fixture: one element with a truthy string price. -/
def claim3ElsEx : List JsVal :=
  [JsVal.obj [("name", JsVal.str "Wool Socks"), ("price", JsVal.str "$12.99")]]

/-- The recommendation list the handler builds from `claim3ElsEx`. -/
def claim3RecsEx : List GiftRecommendation :=
  [{ name := JsVal.str "Wool Socks"
     description := JsVal.str ""
     price := JsNum.val (mkRat 1299 100)
     match_reason := JsVal.str ""
     amazon_link := "https://www.amazon.com/s?k=Wool%20Socks"
     etsy_link := "https://www.etsy.com/search?q=Wool%20Socks" }]

/-- Concrete one-post profile fixture whose caption is a single short
hashtag. -/
def profile10Ex : InstagramProfile :=
  { username := JsVal.str "user"
    bio := some ""
    posts := [mkPostData { captionText := some "#fun", imageSrc := none, likesText := none }] }

/- Helper lemmas shared by the claim theorems. -/

theorem mem_setAdd_self (l : List String) (x : String) : x ∈ setAdd l x := by
  unfold setAdd
  by_cases h : x ∈ l
  · rw [if_pos h]; exact h
  · rw [if_neg h]; exact List.mem_append.mpr (Or.inr (List.mem_singleton.mpr rfl))

theorem mem_setAdd_of_mem {l : List String} {x : String} (y : String) (h : x ∈ l) :
    x ∈ setAdd l y := by
  unfold setAdd
  by_cases hy : y ∈ l
  · rw [if_pos hy]; exact h
  · rw [if_neg hy]; exact List.mem_append.mpr (Or.inl h)

theorem mem_foldl_preserve {α : Type} (f : List String → α → List String)
    (hmono : ∀ a x y, x ∈ a → x ∈ f a y) (x : String) :
    ∀ (l : List α) (acc : List String), x ∈ acc → x ∈ l.foldl f acc := by
  intro l
  induction l with
  | nil => intro acc h; simpa using h
  | cons y t ih => intro acc h; exact ih (f acc y) (hmono acc x y h)

theorem mem_foldl_of_elem {α : Type} (f : List String → α → List String)
    (hmono : ∀ a x y, x ∈ a → x ∈ f a y) (x : String) (i : α)
    (hin : ∀ acc, x ∈ f acc i) :
    ∀ (l : List α) (acc : List String), i ∈ l → x ∈ l.foldl f acc := by
  intro l
  induction l with
  | nil => intro acc h; cases h
  | cons y t ih =>
    intro acc h
    rcases List.mem_cons.mp h with h1 | h1
    · subst h1; exact mem_foldl_preserve f hmono x t (f acc i) (hin acc)
    · exact ih (f acc y) h1

theorem addHashtagInterests_mono (acc : List String) (x : String) (p : Post)
    (h : x ∈ acc) : x ∈ addHashtagInterests acc p :=
  mem_foldl_preserve _ (fun _ _ y h2 => mem_setAdd_of_mem _ h2) x _ acc h

theorem addCaptionKeywords_mono (acc : List String) (x : String) (p : Post)
    (h : x ∈ acc) : x ∈ addCaptionKeywords acc p :=
  mem_foldl_preserve _ (fun _ _ y h2 => mem_setAdd_of_mem y h2) x _ acc h

theorem mapRecsList_mem (budget : JsNum) :
    ∀ (els : List JsVal) (recs : List GiftRecommendation),
      mapRecsList budget els = Except.ok recs →
      ∀ r ∈ recs, ∃ e ∈ els, mapRec budget e = Except.ok r := by
  intro els
  induction els with
  | nil =>
    intro recs h r hr
    unfold mapRecsList at h
    cases h
    cases hr
  | cons e es ih =>
    intro recs h r hr
    unfold mapRecsList at h
    cases h1 : mapRec budget e with
    | error u => rw [h1] at h; cases h
    | ok r1 =>
      rw [h1] at h
      cases h2 : mapRecsList budget es with
      | error u => rw [h2] at h; cases h
      | ok rs =>
        rw [h2] at h
        cases h
        rcases List.mem_cons.mp hr with h3 | h3
        · subst h3; exact ⟨e, List.mem_cons_self e es, h1⟩
        · rcases ih rs h2 r h3 with ⟨e2, he2, hm⟩
          exact ⟨e2, List.mem_cons_of_mem e he2, hm⟩

theorem mapRec_shape (budget : JsNum) (e : JsVal) (rec : GiftRecommendation)
    (h : mapRec budget e = Except.ok rec) :
    ∃ nameV priceV, getProp e "name" = Except.ok nameV ∧ getProp e "price" = Except.ok priceV
      ∧ rec.price = parseFloatModel (stripCurrency (jsToString (jsOrOpt priceV (JsVal.num budget))))
      ∧ rec.amazon_link =
          "https://www.amazon.com/s?k=" ++ encodeURIComponent (jsToString (jsOrOpt nameV (JsVal.str "")))
      ∧ rec.etsy_link =
          "https://www.etsy.com/search?q=" ++ encodeURIComponent (jsToString (jsOrOpt nameV (JsVal.str ""))) := by
  unfold mapRec at h
  cases h1 : getProp e "name" with
  | error u => rw [h1] at h; cases h
  | ok nameV =>
    rw [h1] at h
    cases h2 : getProp e "description" with
    | error u => rw [h2] at h; cases h
    | ok descV =>
      rw [h2] at h
      cases h3 : getProp e "price" with
      | error u => rw [h3] at h; cases h
      | ok priceV =>
        rw [h3] at h
        cases h4 : getProp e "match_reason" with
        | error u => rw [h4] at h; cases h
        | ok reasonV =>
          rw [h4] at h
          cases h
          exact ⟨nameV, priceV, rfl, rfl, rfl, rfl, rfl⟩

theorem generate_cases (jsonParse : String → Except Unit JsVal)
    (apiResult : Except Unit (Option String)) (age budget : JsNum)
    (profileAnalysis : String) (rec : GiftRecommendation)
    (hmem : rec ∈ generateGiftRecommendations jsonParse apiResult age budget profileAnalysis) :
    rec = fallbackRec budget ∨
      ∃ content els, apiResult = Except.ok content ∧
        jsonParse (pipelineText content) = Except.ok (JsVal.arr els) ∧
        ∃ e ∈ els, mapRec budget e = Except.ok rec := by
  unfold generateGiftRecommendations at hmem
  cases apiResult with
  | error u => exact Or.inl (List.mem_singleton.mp hmem)
  | ok content =>
    replace hmem : rec ∈
        (match jsonParse (pipelineText content) with
          | Except.error _ => [fallbackRec budget]
          | Except.ok v =>
            match mapRecs budget v with
            | Except.error _ => [fallbackRec budget]
            | Except.ok recs => recs) := hmem
    cases hp : jsonParse (pipelineText content) with
    | error u =>
      rw [hp] at hmem
      exact Or.inl (List.mem_singleton.mp hmem)
    | ok v =>
      rw [hp] at hmem
      replace hmem : rec ∈
          (match mapRecs budget v with
            | Except.error _ => [fallbackRec budget]
            | Except.ok recs => recs) := hmem
      cases hv : mapRecs budget v with
      | error u =>
        rw [hv] at hmem
        exact Or.inl (List.mem_singleton.mp hmem)
      | ok recs =>
        rw [hv] at hmem
        cases v with
        | arr els =>
          exact Or.inr ⟨content, els, rfl, hp,
            mapRecsList_mem budget els recs hv rec hmem⟩
        | str s => simp [mapRecs] at hv
        | num n => simp [mapRecs] at hv
        | bool b => simp [mapRecs] at hv
        | null => simp [mapRecs] at hv
        | obj fs => simp [mapRecs] at hv

theorem char_toNat_lt (c : Char) : c.toNat < 1114112 := by
  rcases c.valid with h | h
  · show c.val.toNat < 1114112
    omega
  · exact h.2

theorem utf8Bytes_lt (n : Nat) (hn : n < 1114112) : ∀ b ∈ utf8Bytes n, b < 256 := by
  intro b hb
  unfold utf8Bytes at hb
  split at hb
  · rcases List.mem_singleton.mp hb with rfl; omega
  · split at hb
    · simp only [List.mem_cons, List.not_mem_nil, or_false] at hb
      rcases hb with rfl | rfl <;> omega
    · split at hb
      · simp only [List.mem_cons, List.not_mem_nil, or_false] at hb
        rcases hb with rfl | rfl | rfl <;> omega
      · simp only [List.mem_cons, List.not_mem_nil, or_false] at hb
        rcases hb with rfl | rfl | rfl | rfl <;> omega

theorem hexDigitUpper_hex : ∀ n < 16, isHexDigitChar (hexDigitUpper n) = true := by decide

theorem pctEncodeChar_chars (c : Char) :
    ∀ d ∈ pctEncodeChar c, isUriUnreserved d = true ∨ d = '%' ∨ isHexDigitChar d = true := by
  intro d hd
  unfold pctEncodeChar at hd
  rcases List.mem_flatten.mp hd with ⟨l, hl, hdl⟩
  rcases List.mem_map.mp hl with ⟨b, hb, rfl⟩
  have hblt := utf8Bytes_lt c.toNat (char_toNat_lt c) b hb
  simp only [pctByte, List.mem_cons, List.not_mem_nil, or_false] at hdl
  rcases hdl with rfl | rfl | rfl
  · exact Or.inr (Or.inl rfl)
  · exact Or.inr (Or.inr (hexDigitUpper_hex (b / 16) (by omega)))
  · exact Or.inr (Or.inr (hexDigitUpper_hex (b % 16) (by omega)))

theorem encodeURIChars_sound (l : List Char) :
    ∀ d ∈ encodeURIChars l, isUriUnreserved d = true ∨ d = '%' ∨ isHexDigitChar d = true := by
  induction l with
  | nil => intro d hd; cases hd
  | cons c cs ih =>
    intro d hd
    unfold encodeURIChars at hd
    rcases List.mem_append.mp hd with h | h
    · by_cases hc : isUriUnreserved c
      · rw [if_pos hc] at h
        rcases List.mem_singleton.mp h with rfl
        exact Or.inl hc
      · rw [if_neg hc] at h
        exact pctEncodeChar_chars c d h
    · exact ih d h

theorem encodeURIChars_charwise (l : List Char) :
    encodeURIChars l =
      (l.map (fun c => if isUriUnreserved c then [c] else pctEncodeChar c)).flatten := by
  induction l with
  | nil => rfl
  | cons c cs ih => simp [encodeURIChars, ih]

/-- C1: for every inference reply whose cleaned text fails to parse as JSON
(or whose parsed value cannot be mapped to recommendations — the hypothesis
states exactly that disjunction), generateGiftRecommendations returns a
list of exactly one fallback recommendation whose price field equals the
requested budget, rather than throwing or failing the request. -/
theorem claim1_fallback_on_unparseable_reply
    (jsonParse : String → Except Unit JsVal) (content : Option String)
    (age budget : JsNum) (profileAnalysis : String)
    (hfail : ∀ v, jsonParse (pipelineText content) = Except.ok v →
      mapRecs budget v = Except.error ()) :
    generateGiftRecommendations jsonParse (Except.ok content) age budget profileAnalysis
        = [fallbackRec budget]
      ∧ (generateGiftRecommendations jsonParse (Except.ok content) age budget
          profileAnalysis).length = 1
      ∧ ∀ r ∈ generateGiftRecommendations jsonParse (Except.ok content) age budget
          profileAnalysis, r.price = budget := by
  have hmain : generateGiftRecommendations jsonParse (Except.ok content) age budget
      profileAnalysis = [fallbackRec budget] := by
    show (match jsonParse (pipelineText content) with
      | Except.error _ => [fallbackRec budget]
      | Except.ok v =>
        match mapRecs budget v with
        | Except.error _ => [fallbackRec budget]
        | Except.ok recs => recs) = [fallbackRec budget]
    cases hp : jsonParse (pipelineText content) with
    | error u => rfl
    | ok v =>
      show (match mapRecs budget v with
        | Except.error _ => [fallbackRec budget]
        | Except.ok recs => recs) = [fallbackRec budget]
      rw [hfail v hp]
  refine ⟨hmain, by rw [hmain]; rfl, ?_⟩
  intro r hr
  rw [hmain] at hr
  rcases List.mem_singleton.mp hr with rfl
  rfl

/-- Closed instance of C1 at a reply that cannot parse. -/
theorem claim1_fallback_on_unparseable_reply_witness :
    generateGiftRecommendations (fun _ => Except.error ()) (Except.ok (some "no json here"))
        (JsNum.val 25) (JsNum.val 50) "" = [fallbackRec (JsNum.val 50)]
      ∧ (fallbackRec (JsNum.val 50)).price = JsNum.val 50 :=
  ⟨(claim1_fallback_on_unparseable_reply (fun _ => Except.error ()) (some "no json here")
      (JsNum.val 25) (JsNum.val 50) "" (fun v h => nomatch h)).1, rfl⟩

/-- C2: a request to the recommendation endpoint missing the age or budget
form field yields HTTP 400 with an error body; the response is the same
constant for every oracle bundle, so compression, analysis and
recommendation are never consulted. -/
theorem claim2_missing_fields_yield_400
    (fd : String → FormValue) (o : RecoOracles)
    (hmiss : fd "age" = FormValue.missing ∨ fd "budget" = FormValue.missing) :
    POSTrecommendations (Except.ok fd) o
      = ⟨400, RecoBody.error "Missing required fields"⟩ := by
  show (let age := jsNumberOfForm (fd "age")
    let budget := jsNumberOfForm (fd "budget")
    if !jsNumTruthy age || !jsNumTruthy budget then
      (⟨400, RecoBody.error "Missing required fields"⟩ : RecoResponse)
    else
      match fd "instagram-grid" with
      | FormValue.file bytes =>
        let base64Image := compressImage bytes o.sharpResult
        let profileAnalysis := analyzeImage base64Image o.analyzeApi
        ⟨200, RecoBody.recommendations (generateGiftRecommendations o.jsonParse o.recoApi
          age budget
          (if profileAnalysis = "" then "No profile analysis available." else profileAnalysis))⟩
      | FormValue.str s =>
        if s = "" then
          ⟨200, RecoBody.recommendations (generateGiftRecommendations o.jsonParse o.recoApi
            age budget "No profile analysis available.")⟩
        else ⟨500, RecoBody.error "Failed to get gift recommendations"⟩
      | FormValue.missing =>
        ⟨200, RecoBody.recommendations (generateGiftRecommendations o.jsonParse o.recoApi
          age budget "No profile analysis available.")⟩)
      = (⟨400, RecoBody.error "Missing required fields"⟩ : RecoResponse)
  rcases hmiss with h | h <;> rw [h] <;>
    simp [jsNumberOfForm, jsNumTruthy]

/-- Closed instance of C2 with both fields missing. -/
theorem claim2_missing_fields_yield_400_witness :
    POSTrecommendations (Except.ok (fun _ => FormValue.missing)) oraclesEx
      = ⟨400, RecoBody.error "Missing required fields"⟩ :=
  claim2_missing_fields_yield_400 (fun _ => FormValue.missing) oraclesEx (Or.inl rfl)

/-- C7: compressImage always returns at most 50000 characters, and returns
the empty string — without propagating any exception — when the buffer is
empty or the compression step fails. -/
theorem claim7_compressImage_capped (buffer : List Nat)
    (sharpResult : Except Unit (List Nat)) :
    (compressImage buffer sharpResult).length ≤ 50000
      ∧ (buffer = [] → compressImage buffer sharpResult = "")
      ∧ (sharpResult = Except.error () → compressImage buffer sharpResult = "") := by
  unfold compressImage
  rcases buffer with _ | ⟨b, bs⟩
  · simp
  · rw [if_neg (by simp)]
    cases sharpResult with
    | error u =>
      refine ⟨?_, ?_, ?_⟩
      · show ("" : String).length ≤ 50000
        decide
      · intro h; exact absurd h (by simp)
      · intro h; rfl
    | ok compressed =>
      refine ⟨?_, ?_, ?_⟩
      · show ((base64Encode compressed).take 50000).length ≤ 50000
        rw [List.length_take]
        exact min_le_left _ _
      · intro h; exact absurd h (by simp)
      · intro h; exact absurd h (by simp)

/-- Closed instance of C7 on an empty buffer, a failing compression, and a
successful compression. -/
theorem claim7_compressImage_capped_witness :
    compressImage [] (Except.ok [1, 2, 3]) = ""
      ∧ compressImage [7] (Except.error ()) = ""
      ∧ (compressImage [7] (Except.ok [1, 2, 3])).length ≤ 50000 :=
  ⟨(claim7_compressImage_capped [] (Except.ok [1, 2, 3])).2.1 rfl,
   (claim7_compressImage_capped [7] (Except.error ())).2.2 rfl,
   (claim7_compressImage_capped [7] (Except.ok [1, 2, 3])).1⟩

/-- C8: a scrape request whose JSON body has a missing or otherwise falsy
(e.g. empty) username yields HTTP 400 with an error body; the response is
the same constant for every page state, so the scraper is never launched. -/
theorem claim8_missing_username_yields_400
    (b : JsVal) (u : Option JsVal) (dom : ScrapeDom) (api : Except Unit (Option String))
    (hu : getProp b "username" = Except.ok u) (hfalsy : jsTruthyOpt u = false) :
    POSTscrape (Except.ok b) dom api = ⟨400, ScrapeBody.error "Username is required"⟩ := by
  show (match getProp b "username" with
    | Except.error _ => (⟨500, ScrapeBody.error "Failed to fetch Instagram data"⟩ : ScrapeResponse)
    | Except.ok usernameV =>
      if !jsTruthyOpt usernameV then ⟨400, ScrapeBody.error "Username is required"⟩
      else
        match scrapeInstagramProfile (usernameV.getD JsVal.null) dom with
        | none => ⟨404, ScrapeBody.error "Failed to fetch Instagram data"⟩
        | some profileData =>
          ⟨200, ScrapeBody.success profileData (extractInterests profileData)
            (analyzeProfile profileData api)⟩)
      = (⟨400, ScrapeBody.error "Username is required"⟩ : ScrapeResponse)
  rw [hu]
  simp [hfalsy]

/-- Closed instance of C8 with a body that has no username field. -/
theorem claim8_missing_username_yields_400_witness :
    POSTscrape (Except.ok (JsVal.obj [])) ⟨false, [], none⟩ (Except.ok none)
      = ⟨400, ScrapeBody.error "Username is required"⟩ :=
  claim8_missing_username_yields_400 (JsVal.obj []) none ⟨false, [], none⟩
    (Except.ok none) rfl rfl

/-- C9 (implicit): the 400 check uses numeric truthiness, so an age or
budget field that is present as a string but converts to 0 or to NaN is
rejected with the same 400 response as a missing field. -/
theorem claim9_zero_or_nan_fields_yield_400
    (fd : String → FormValue) (o : RecoOracles) (s : String)
    (hfield : fd "age" = FormValue.str s ∨ fd "budget" = FormValue.str s)
    (hval : jsNumberOfString s = JsNum.val 0 ∨ jsNumberOfString s = JsNum.nan) :
    POSTrecommendations (Except.ok fd) o
      = ⟨400, RecoBody.error "Missing required fields"⟩ := by
  have htr : jsNumTruthy (jsNumberOfString s) = false := by
    rcases hval with h | h <;> rw [h] <;> decide
  rcases hfield with h | h <;>
    simp [POSTrecommendations, h, jsNumberOfForm, htr]

/-- Closed instance of C9 with an unparseable age field. -/
theorem claim9_zero_or_nan_fields_yield_400_witness :
    POSTrecommendations
        (Except.ok (fun k => if k == "age" then FormValue.str "not a number" else FormValue.str "50"))
        oraclesEx
      = ⟨400, RecoBody.error "Missing required fields"⟩ :=
  claim9_zero_or_nan_fields_yield_400 _ oraclesEx "not a number"
    (Or.inl rfl) (Or.inr (by decide))

/-- C3 counterexample: with a successfully parsed reply whose element has
the (falsy) model price value 0 and a requested budget of 50, the handler
stores 50 — the budget, not the parse of the stripped model price (which is
0), so the price is not always derived from the model's price value. -/
theorem claim3_price_counterexample :
    (generateGiftRecommendations
        (fun _ => Except.ok (JsVal.arr
          [JsVal.obj [("name", JsVal.str "Mug"), ("price", JsVal.num (JsNum.val 0))]]))
        (Except.ok (some "reply")) (JsNum.val 25) (JsNum.val 50) "").map
        (fun r => r.price) = [JsNum.val 50]
      ∧ claimedPrice (JsVal.num (JsNum.val 0)) = JsNum.val 0
      ∧ JsNum.val 50 ≠ JsNum.val 0 :=
  ⟨rfl, by decide, by decide⟩

/-- C3 as amended: every recommendation produced from a successfully parsed
model reply has as price the parse of the currency-stripped string of
`rec.price || budget` — i.e. of the model's price value when that value is
truthy, and of the requested budget otherwise. -/
theorem claim3_price_derivation_amended
    (jsonParse : String → Except Unit JsVal) (content : Option String)
    (age budget : JsNum) (profileAnalysis : String)
    (els : List JsVal) (recs : List GiftRecommendation)
    (hP : jsonParse (pipelineText content) = Except.ok (JsVal.arr els))
    (hmap : mapRecsList budget els = Except.ok recs) :
    generateGiftRecommendations jsonParse (Except.ok content) age budget profileAnalysis
        = recs
      ∧ ∀ rec ∈ recs, ∃ e ∈ els, mapRec budget e = Except.ok rec ∧
          ∃ priceV, getProp e "price" = Except.ok priceV ∧
            rec.price =
              parseFloatModel (stripCurrency (jsToString (jsOrOpt priceV (JsVal.num budget)))) := by
  constructor
  · show (match jsonParse (pipelineText content) with
      | Except.error _ => [fallbackRec budget]
      | Except.ok v =>
        match mapRecs budget v with
        | Except.error _ => [fallbackRec budget]
        | Except.ok rs => rs) = recs
    rw [hP]
    show (match mapRecs budget (JsVal.arr els) with
      | Except.error _ => [fallbackRec budget]
      | Except.ok rs => rs) = recs
    show (match mapRecsList budget els with
      | Except.error _ => [fallbackRec budget]
      | Except.ok rs => rs) = recs
    rw [hmap]
  · intro rec hr
    rcases mapRecsList_mem budget els recs hmap rec hr with ⟨e, he, hm⟩
    rcases mapRec_shape budget e rec hm with ⟨nameV, priceV, hn, hp2, hprice, _, _⟩
    exact ⟨e, he, hm, priceV, hp2, hprice⟩

/-- Closed instance of the amended C3 at a truthy string price "$12.99". -/
theorem claim3_price_derivation_amended_witness :
    generateGiftRecommendations (fun _ => Except.ok (JsVal.arr claim3ElsEx))
        (Except.ok (some "reply")) (JsNum.val 25) (JsNum.val 50) "" = claim3RecsEx :=
  (claim3_price_derivation_amended (fun _ => Except.ok (JsVal.arr claim3ElsEx))
    (some "reply") (JsNum.val 25) (JsNum.val 50) "" claim3ElsEx claim3RecsEx rfl rfl).1

/-- C4: for the caption `#gift #fun`, the extraction pipeline (hashtag
pattern match on the caption as the scraper computes it, then `#` sliced
off and the tag lowercased) yields exactly the set containing gift and
fun. -/
theorem claim4_hashtag_extraction_gift_fun :
    hashtagMatch "#gift #fun" = ["#gift", "#fun"]
      ∧ (mkPostData { captionText := some "#gift #fun", imageSrc := none, likesText := none }).hashtags
          = some ["#gift", "#fun"]
      ∧ (hashtagMatch "#gift #fun").map (fun t => jsToLower (jsSlice1 t)) = ["gift", "fun"]
      ∧ ∀ w, w ∈ (hashtagMatch "#gift #fun").map (fun t => jsToLower (jsSlice1 t))
          ↔ (w = "gift" ∨ w = "fun") := by
  refine ⟨by decide, by decide, by decide, ?_⟩
  intro w
  rw [show (hashtagMatch "#gift #fun").map (fun t => jsToLower (jsSlice1 t))
    = ["gift", "fun"] from by decide]
  simp

/-- C5: the keyword extraction used for captions and for the bio keeps no
word of length at most 3: every extracted word is strictly longer than 3. -/
theorem claim5_keywords_longer_than_three (co : Option String) (w : String)
    (hw : w ∈ optKeywords co) : 3 < w.length := by
  cases co with
  | none => cases hw
  | some s =>
    replace hw : w ∈ (splitNonWord (jsToLower s)).filter (fun x => decide (3 < x.length)) := hw
    exact of_decide_eq_true (List.mem_filter.mp hw).2

/-- Closed instance of C5 on a concrete caption. -/
theorem claim5_keywords_longer_than_three_witness :
    3 < ("love" : String).length ∧ "love" ∈ optKeywords (some "Love hiking!") :=
  ⟨claim5_keywords_longer_than_three (some "Love hiking!") "love" (by decide), by decide⟩

/-- C6: every recommendation the handler produces (mapped or fallback)
carries Amazon and Etsy search links that embed a name percent-encoded by
`encodeURIComponent`: the encoding rewrites the name character by
character, replacing every character outside the unescaped set by
percent-escapes, and its output consists only of unescaped characters,
`%`, and hex digits. -/
theorem claim6_links_percent_encoded
    (jsonParse : String → Except Unit JsVal) (apiResult : Except Unit (Option String))
    (age budget : JsNum) (profileAnalysis : String) (rec : GiftRecommendation)
    (hmem : rec ∈ generateGiftRecommendations jsonParse apiResult age budget profileAnalysis) :
    ∃ nm : String,
      rec.amazon_link = "https://www.amazon.com/s?k=" ++ encodeURIComponent nm
      ∧ rec.etsy_link = "https://www.etsy.com/search?q=" ++ encodeURIComponent nm
      ∧ encodeURIChars nm.data =
          (nm.data.map (fun c => if isUriUnreserved c then [c] else pctEncodeChar c)).flatten
      ∧ ∀ d ∈ (encodeURIComponent nm).data,
          isUriUnreserved d = true ∨ d = '%' ∨ isHexDigitChar d = true := by
  rcases generate_cases jsonParse apiResult age budget profileAnalysis rec hmem with
    h | ⟨content, els, _, _, e, _, hm⟩
  · subst h
    exact ⟨"gift", rfl, rfl, encodeURIChars_charwise _,
      fun d hd => encodeURIChars_sound _ d hd⟩
  · rcases mapRec_shape budget e rec hm with ⟨nameV, priceV, _, _, _, ha, he2⟩
    exact ⟨jsToString (jsOrOpt nameV (JsVal.str "")), ha, he2,
      encodeURIChars_charwise _, fun d hd => encodeURIChars_sound _ d hd⟩

/-- Closed instance of C6, with a concrete check that a name containing a
space and punctuation is escaped as expected. -/
theorem claim6_links_percent_encoded_witness :
    (∃ nm : String,
      (fallbackRec (JsNum.val 50)).amazon_link
          = "https://www.amazon.com/s?k=" ++ encodeURIComponent nm
      ∧ (fallbackRec (JsNum.val 50)).etsy_link
          = "https://www.etsy.com/search?q=" ++ encodeURIComponent nm
      ∧ encodeURIChars nm.data =
          (nm.data.map (fun c => if isUriUnreserved c then [c] else pctEncodeChar c)).flatten
      ∧ ∀ d ∈ (encodeURIComponent nm).data,
          isUriUnreserved d = true ∨ d = '%' ∨ isHexDigitChar d = true)
    ∧ encodeURIComponent "A B!" = "A%20B!" :=
  ⟨claim6_links_percent_encoded (fun _ => Except.ok JsVal.null) (Except.error ())
      (JsNum.val 25) (JsNum.val 50) "" (fallbackRec (JsNum.val 50))
      (List.mem_singleton.mpr rfl),
   by decide⟩

/-- C10 (implicit): hashtag-derived interests carry no length filter — the
lowercased tag of any hashtag of any post lands in the returned interests
set, regardless of its length, even though caption and bio words of length
at most 3 are excluded. -/
theorem claim10_short_hashtags_enter_interests
    (p : InstagramProfile) (post : Post) (hs : List String) (tag : String)
    (hpost : post ∈ p.posts) (hhs : post.hashtags = some hs) (htag : tag ∈ hs) :
    jsToLower (jsSlice1 tag) ∈ extractInterests p := by
  unfold extractInterests
  apply mem_foldl_preserve setAdd (fun _ _ y h2 => mem_setAdd_of_mem y h2)
  apply mem_foldl_preserve addCaptionKeywords
    (fun a x y h2 => addCaptionKeywords_mono a x y h2)
  apply mem_foldl_of_elem addHashtagInterests
    (fun a x y h2 => addHashtagInterests_mono a x y h2) _ post _ p.posts [] hpost
  intro acc
  show jsToLower (jsSlice1 tag) ∈ (post.hashtags.getD []).foldl
    (fun a t => setAdd a (jsToLower (jsSlice1 t))) acc
  rw [hhs]
  exact mem_foldl_of_elem (fun a t => setAdd a (jsToLower (jsSlice1 t)))
    (fun _ _ y h2 => mem_setAdd_of_mem _ h2) (jsToLower (jsSlice1 tag)) tag
    (fun a => mem_setAdd_self a (jsToLower (jsSlice1 tag))) hs acc htag

/-- Closed instance of C10: the length-3 tag of `#fun` reaches the
interests set even though the keyword filter would exclude it. -/
theorem claim10_short_hashtags_enter_interests_witness :
    "fun" ∈ extractInterests profile10Ex ∧ ¬ 3 < ("fun" : String).length :=
  ⟨claim10_short_hashtags_enter_interests profile10Ex
      (mkPostData { captionText := some "#fun", imageSrc := none, likesText := none })
      ["#fun"] "#fun" (List.mem_singleton.mpr rfl) (by decide) (by decide),
   by decide⟩

end InstaGift
